import Mathlib

/-!
# Verification of the car-rental booking core

Shallow embedding of the booking configuration state machine of
`src/frontend/src/store/bookingSlice.ts` (reducers and async-thunk result
handlers), the selectors of the same store module (`selectRentalDays`,
`selectBookingSummary`, `selectIsBookingValid`), and the date-validation
handlers of `src/frontend/src/components/DateSelection.tsx`, together with the
confirmation gate of `App.tsx`.

Modelling conventions:
* Date strings stay strings.  `parseRaw`/`parseDate` model JavaScript
  `new Date(s)` for complete ISO `YYYY-MM-DD` inputs (the only shape the HTML
  date inputs produce); all other inputs are modelled as unparseable
  (`Invalid Date`).
* JavaScript string comparison (`<=` on strings, used by the `setPickupDate`
  reducer) is code-unit lexicographic order, embedded as `jsStrLe`.
* Monetary arithmetic is embedded in `ℚ`; the JS literal `0.18` is the
  rational `18/100`.
* `Date` object comparisons of two local-midnight dates are embedded as
  lexicographic comparison of `(year, month, day)` triples (`dateLtB`), which
  agrees with comparison of the underlying time values.
-/

namespace CarRental

/-! ## Calendar dates -/

/-- A calendar date `year-month-day` (no time of day). -/
structure CalDate where
  y : Nat
  m : Nat
  d : Nat
deriving DecidableEq

/-- Strict chronological order on calendar dates: lexicographic on
`(year, month, day)`.  For valid dates this is exactly the order of the JS
time values of their local (or UTC) midnights. -/
def dateLtB (a b : CalDate) : Bool :=
  a.y < b.y || (a.y == b.y && (a.m < b.m || (a.m == b.m && a.d < b.d)))

/-- Non-strict chronological order on calendar dates. -/
def dateLeB (a b : CalDate) : Bool :=
  dateLtB a b || decide (a = b)

/-- The regex class `\d` used by `isCompleteDate`'s format check. -/
def isDigitCh (c : Char) : Bool :=
  decide ('0' ≤ c) && decide (c ≤ '9')

/-- Numeric value of a digit character. -/
def dval (c : Char) : Nat := c.toNat - '0'.toNat

/-- Format-level parse of a `YYYY-MM-DD` character list (the regex
`^\d\x7b4}-\d\x7b2}-\d\x7b2}$` of `isCompleteDate`, plus extraction of the
numeric fields).  Calendar validity is not yet checked here. -/
def parseRawL : List Char → Option CalDate
  | [y1, y2, y3, y4, h1, m1, m2, h2, d1, d2] =>
    if isDigitCh y1 && isDigitCh y2 && isDigitCh y3 && isDigitCh y4 &&
        (h1 == '-') && isDigitCh m1 && isDigitCh m2 &&
        (h2 == '-') && isDigitCh d1 && isDigitCh d2 then
      some ⟨dval y1 * 1000 + dval y2 * 100 + dval y3 * 10 + dval y4,
            dval m1 * 10 + dval m2,
            dval d1 * 10 + dval d2⟩
    else none
  | _ => none

def parseRaw (s : String) : Option CalDate := parseRawL s.data

/-- Gregorian leap-year rule (as applied by JS `Date` for ISO inputs). -/
def isLeap (y : Nat) : Bool :=
  y % 4 == 0 && (y % 100 != 0 || y % 400 == 0)

def daysInMonth (y m : Nat) : Nat :=
  if m == 2 then (if isLeap y then 29 else 28)
  else if m == 4 || m == 6 || m == 9 || m == 11 then 30
  else 31

/-- Calendar validity of a parsed `YYYY-MM-DD` triple: exactly the inputs for
which JS `new Date(s)` yields a valid time value (month `01`–`12`, day within
the month). -/
def validCalDate (dt : CalDate) : Bool :=
  1 ≤ dt.m && dt.m ≤ 12 && 1 ≤ dt.d && dt.d ≤ daysInMonth dt.y dt.m

/-- `isCompleteDate` of `DateSelection.tsx`: the string matches
`^\d\x7b4}-\d\x7b2}-\d\x7b2}$` and `new Date(s)` is a valid date. -/
def isCompleteDate (s : String) : Bool :=
  match parseRaw s with
  | some dt => validCalDate dt
  | none => false

/-- `new Date(s)` (or `new Date(s + 'T00:00:00')`) as a calendar date:
`some` exactly on complete, calendar-valid `YYYY-MM-DD` strings. -/
def parseDate (s : String) : Option CalDate :=
  match parseRaw s with
  | some dt => if validCalDate dt then some dt else none
  | none => none

/-- Day number of a calendar date in the proleptic Gregorian calendar,
shifted by a constant so it stays in `Nat` for all four-digit years.
Differences of `dayNumber` equal differences of JS time values measured in
whole days, which is all `selectRentalDays` uses. -/
def dayNumber (dt : CalDate) : Nat :=
  let ym := if dt.m ≤ 2 then dt.y + 399 else dt.y + 400
  let mp := if dt.m ≤ 2 then dt.m + 9 else dt.m - 3
  ym * 365 + ym / 4 - ym / 100 + ym / 400 + (153 * mp + 2) / 5 + dt.d - 1

/-! ## JavaScript string order

The `setPickupDate` reducer compares the raw date strings with JS `<=`,
which is code-unit lexicographic order. -/

def jsStrLtL : List Char → List Char → Bool
  | _, [] => false
  | [], _ :: _ => true
  | a :: as, b :: bs =>
    if a.toNat < b.toNat then true
    else if a.toNat == b.toNat then jsStrLtL as bs
    else false

/-- JS `a < b` on strings. -/
def jsStrLt (a b : String) : Bool := jsStrLtL a.data b.data

/-- JS `a <= b` on strings (total order: `a <= b` iff `¬(b < a)`). -/
def jsStrLe (a b : String) : Bool := !jsStrLt b a

/-! ## Data model (`src/frontend/src/types/…`) -/

structure Vehicle where
  id : Nat
  name : String
  emoji : String
  costPerDay : ℚ
deriving DecidableEq

structure Addon where
  id : Nat
  name : String
  costPerDay : ℚ
deriving DecidableEq

structure BookingState where
  selectedVehicle : Option Vehicle
  pickupDate : String
  dropoffDate : String
  selectedAddons : List Nat
  vehicles : List Vehicle
  addons : List Addon
  loading : Bool
  error : Option String
  showConfirmationFlag : Bool
deriving DecidableEq

/-- `initialState` of `bookingSlice.ts`. -/
def initialState : BookingState :=
  { selectedVehicle := none
    pickupDate := ""
    dropoffDate := ""
    selectedAddons := []
    vehicles := []
    addons := []
    loading := false
    error := none
    showConfirmationFlag := false }

/-! ## Reducers of `bookingSlice.ts` -/

/-- Reducer `selectVehicle`: clears both dates when a *different* vehicle was
previously selected, then sets the vehicle and unconditionally clears the
selected add-on ids and the available add-ons list. -/
def selectVehicle (v : Vehicle) (s : BookingState) : BookingState :=
  let cleared :=
    match s.selectedVehicle with
    | some w => if w.id != v.id then { s with pickupDate := "", dropoffDate := "" } else s
    | none => s
  { cleared with selectedVehicle := some v, selectedAddons := [], addons := [] }

/-- Reducer `setPickupDate`: stores the payload, then clears the dropoff date
when it is non-empty and `dropoffDate <= payload` as a JS *string*
comparison. -/
def setPickupDate (value : String) (s : BookingState) : BookingState :=
  let s := { s with pickupDate := value }
  if !(s.dropoffDate == "") && jsStrLe s.dropoffDate value then
    { s with dropoffDate := "" }
  else s

/-- Reducer `setDropoffDate`: stores the payload unconditionally. -/
def setDropoffDate (value : String) (s : BookingState) : BookingState :=
  { s with dropoffDate := value }

/-- Reducer `toggleAddon`: removes the id when present (first occurrence,
`splice` at `indexOf`), appends it otherwise.  There is no check against the
available add-ons list. -/
def toggleAddon (addonId : Nat) (s : BookingState) : BookingState :=
  if s.selectedAddons.contains addonId then
    { s with selectedAddons := s.selectedAddons.erase addonId }
  else
    { s with selectedAddons := s.selectedAddons ++ [addonId] }

/-- Reducer `showConfirmation`. -/
def showConfirmation (s : BookingState) : BookingState :=
  { s with showConfirmationFlag := true }

/-- Reducer `hideConfirmation`. -/
def hideConfirmation (s : BookingState) : BookingState :=
  { s with showConfirmationFlag := false }

/-- Reducer `resetBooking`: clears vehicle, dates, selected add-ons and the
confirmation flag — and nothing else. -/
def resetBooking (s : BookingState) : BookingState :=
  { s with selectedVehicle := none
           pickupDate := ""
           dropoffDate := ""
           selectedAddons := []
           showConfirmationFlag := false }

/-- `fetchVehicles.pending` handler. -/
def fetchVehiclesPending (s : BookingState) : BookingState :=
  { s with loading := true, error := none }

/-- `fetchVehicles.fulfilled` handler. -/
def fetchVehiclesFulfilled (payload : List Vehicle) (s : BookingState) : BookingState :=
  { s with loading := false, vehicles := payload }

/-- `fetchVehicles.rejected` handler. -/
def fetchVehiclesRejected (msg : String) (s : BookingState) : BookingState :=
  { s with loading := false, error := some msg }

/-- `fetchAddons.pending` handler: clears any previous error. -/
def fetchAddonsPending (s : BookingState) : BookingState :=
  if s.error.isSome then { s with error := none } else s

/-- `fetchAddons.fulfilled` handler.  `originVehicleId` is the thunk argument
(the vehicle the fetch was started for, available to the reducer as
`action.meta.arg`); the reducer does not consult it and stores the payload
unconditionally. -/
def fetchAddonsFulfilled (originVehicleId : Option Nat) (payload : List Addon)
    (s : BookingState) : BookingState :=
  let _ := originVehicleId
  { s with addons := payload }

/-- `fetchAddons.rejected` handler: empties the available add-ons list. -/
def fetchAddonsRejected (s : BookingState) : BookingState :=
  { s with addons := [] }

/-! ## Date validators and handlers of `DateSelection.tsx` -/

/-- `isValidDate`: a complete date must not be before today; empty or
incomplete input is not judged. -/
def isValidDate (today : CalDate) (s : String) : Bool :=
  if s == "" then true
  else
    match parseDate s with
    | none => true
    | some dt => !dateLtB dt today

/-- `isValidDropoffDate`: when both strings are complete dates, the dropoff
must be strictly after the pickup; otherwise not judged. -/
def isValidDropoffDate (dropoff pickup : String) : Bool :=
  if dropoff == "" || pickup == "" then true
  else
    match parseDate dropoff, parseDate pickup with
    | some dd, some pp => dateLtB pp dd
    | _, _ => true

/-- Field-level error state local to `DateSelection` (React `useState`). -/
structure DateUi where
  pickupError : Option String
  dropoffError : Option String
deriving DecidableEq

def pickupErrKey : String := "validation.invalidPickupDate"
def dropoffErrKey : String := "validation.invalidDropoffDate"
def pastDateKey : String := "validation.pastDate"

/-- `handlePickupChange`: rejects complete past dates before dispatching
(no state change, only a field error); otherwise dispatches
`setPickupDate` and re-validates the previously shown dropoff date,
dispatching `setDropoffDate('')` when it is no longer strictly after the new
pickup. -/
def handlePickupChange (today : CalDate) (value : String) (s : BookingState)
    (ui : DateUi) : BookingState × DateUi :=
  if !(value == "") && isCompleteDate value then
    match parseDate value with
    | some dv =>
      if dateLtB dv today then
        (s, { ui with pickupError := some pickupErrKey })
      else
        let s1 := setPickupDate value s
        let ui1 :=
          if !isValidDate today value then { ui with pickupError := some pickupErrKey }
          else { ui with pickupError := none }
        if !(s.dropoffDate == "") && isCompleteDate s.dropoffDate &&
            !isValidDropoffDate s.dropoffDate value then
          (setDropoffDate "" s1, { ui1 with dropoffError := some dropoffErrKey })
        else if !(s.dropoffDate == "") && isCompleteDate s.dropoffDate then
          (s1, { ui1 with dropoffError := none })
        else
          (s1, ui1)
    | none => (setPickupDate value s, { ui with pickupError := none })
  else (setPickupDate value s, { ui with pickupError := none })

/-- `handleDropoffChange`: rejects complete dates that are in the past or not
strictly after a complete pickup (no state change, only a field error);
otherwise dispatches `setDropoffDate`. -/
def handleDropoffChange (today : CalDate) (value : String) (s : BookingState)
    (ui : DateUi) : BookingState × DateUi :=
  if !(value == "") && isCompleteDate value then
    match parseDate value with
    | some dv =>
      if dateLtB dv today then
        (s, { ui with dropoffError := some pastDateKey })
      else if !(s.pickupDate == "") && isCompleteDate s.pickupDate &&
          (match parseDate s.pickupDate with
           | some pp => !dateLtB pp dv
           | none => false) then
        (s, { ui with dropoffError := some dropoffErrKey })
      else
        let s1 := setDropoffDate value s
        if s.pickupDate == "" then (s1, { ui with dropoffError := some dropoffErrKey })
        else if !isValidDate today value then (s1, { ui with dropoffError := some pastDateKey })
        else if !isValidDropoffDate value s.pickupDate then
          (s1, { ui with dropoffError := some dropoffErrKey })
        else (s1, { ui with dropoffError := none })
    | none => (setDropoffDate value s, { ui with dropoffError := none })
  else (setDropoffDate value s, { ui with dropoffError := none })

/-! ## Selectors -/

structure BookingSummary where
  vehicle : Vehicle
  days : Nat
  baseCost : ℚ
  addonsCost : ℚ
  subtotal : ℚ
  gst : ℚ
  total : ℚ
  selectedAddons : List Addon
deriving DecidableEq

/-- `selectRentalDays`: 0 when either date string is empty or unparseable,
otherwise the absolute difference of the two dates in whole days (both are
parsed to midnight of the same clock, so the millisecond quotient is exact
and `Math.ceil` is the identity). -/
def selectRentalDays (s : BookingState) : Nat :=
  if s.pickupDate == "" || s.dropoffDate == "" then 0
  else
    match parseDate s.pickupDate, parseDate s.dropoffDate with
    | some p, some q => ((dayNumber q : Int) - (dayNumber p : Int)).natAbs
    | _, _ => 0

/-- `selectBookingSummary`: `none` unless a vehicle and both dates are set and
the day count is positive; otherwise the cost breakdown, with the add-ons
cost summed over the available add-ons whose id is currently selected. -/
def selectBookingSummary (s : BookingState) : Option BookingSummary :=
  let days := selectRentalDays s
  match s.selectedVehicle with
  | none => none
  | some v =>
    if s.pickupDate == "" || s.dropoffDate == "" || days == 0 then none
    else
      let selectedAddonObjects := s.addons.filter (fun a => s.selectedAddons.contains a.id)
      let baseCost := v.costPerDay * (days : ℚ)
      let addonsCost :=
        selectedAddonObjects.foldl (fun sum a => sum + a.costPerDay * (days : ℚ)) 0
      let subtotal := baseCost + addonsCost
      let gst := subtotal * (18 / 100)
      let total := subtotal + gst
      some ⟨v, days, baseCost, addonsCost, subtotal, gst, total, selectedAddonObjects⟩

/-- `selectIsBookingValid`. -/
def selectIsBookingValid (s : BookingState) : Bool :=
  s.selectedVehicle.isSome && !(s.pickupDate == "") && !(s.dropoffDate == "") &&
    decide (0 < selectRentalDays s)

/-- `handleBookNow` of `App.tsx`: dispatches `showConfirmation` only when the
validity gate holds. -/
def handleBookNow (s : BookingState) : BookingState :=
  if selectIsBookingValid s then showConfirmation s else s

/-! ## The transition system

One user-or-network event, as dispatched by the components; `step` applies
the corresponding handler/reducer to the booking state. -/

inductive Action where
  | selectVehicleA (v : Vehicle)
  | pickupChangeA (today : CalDate) (value : String)
  | dropoffChangeA (today : CalDate) (value : String)
  | toggleAddonA (id : Nat)
  | bookNowA
  | hideConfirmationA
  | resetA
  | vehiclesPendingA
  | vehiclesFulfilledA (payload : List Vehicle)
  | vehiclesRejectedA (msg : String)
  | addonsPendingA
  | addonsFulfilledA (originVehicleId : Option Nat) (payload : List Addon)
  | addonsRejectedA

def step (s : BookingState) : Action → BookingState
  | .selectVehicleA v => selectVehicle v s
  | .pickupChangeA t value => (handlePickupChange t value s ⟨none, none⟩).1
  | .dropoffChangeA t value => (handleDropoffChange t value s ⟨none, none⟩).1
  | .toggleAddonA i => toggleAddon i s
  | .bookNowA => handleBookNow s
  | .hideConfirmationA => hideConfirmation s
  | .resetA => resetBooking s
  | .vehiclesPendingA => fetchVehiclesPending s
  | .vehiclesFulfilledA vs => fetchVehiclesFulfilled vs s
  | .vehiclesRejectedA m => fetchVehiclesRejected m s
  | .addonsPendingA => fetchAddonsPending s
  | .addonsFulfilledA origin payload => fetchAddonsFulfilled origin payload s
  | .addonsRejectedA => fetchAddonsRejected s

/-- State reached after a list of events, oldest first. -/
def applyActions (acts : List Action) (s : BookingState) : BookingState :=
  acts.foldl step s

/-! ## Order agreement: JS string order vs. calendar order

On well-formed `YYYY-MM-DD` strings the code-unit lexicographic order used by
the `setPickupDate` reducer coincides with the chronological order used by the
`DateSelection` validators. -/

lemma char_toNat_inj {c d : Char} (h : c.toNat = d.toNat) : c = d := by
  have h1 := Char.ofNat_toNat c
  have h2 := Char.ofNat_toNat d
  rw [← h1, ← h2, h]

lemma isDigitCh_bounds {c : Char} (h : isDigitCh c = true) :
    48 ≤ c.toNat ∧ c.toNat ≤ 57 := by
  simp only [isDigitCh, Bool.and_eq_true, decide_eq_true_eq] at h
  exact ⟨h.1, h.2⟩

lemma dval_eq {c : Char} : dval c = c.toNat - 48 := rfl

/-- One lexicographic comparison step, in terms of code units. -/
lemma jsStrLtL_cons (a b : Char) (as bs : List Char) :
    jsStrLtL (a :: as) (b :: bs) = true ↔
      a.toNat < b.toNat ∨ (a.toNat = b.toNat ∧ jsStrLtL as bs = true) := by
  simp only [jsStrLtL]
  by_cases h1 : a.toNat < b.toNat
  · simp [h1]
  · by_cases h2 : a.toNat = b.toNat
    · simp [h1, h2]
    · simp [h1, h2]

lemma jsStrLtL_nil : jsStrLtL [] [] = false := rfl

/-- Lexicographic order of two format-correct `YYYY-MM-DD` character lists
agrees with chronological order of the parsed dates. -/
lemma jsStrLtL_pattern
    (y1 y2 y3 y4 m1 m2 d1 d2 z1 z2 z3 z4 n1 n2 e1 e2 : Char)
    (hy1 : isDigitCh y1 = true) (hy2 : isDigitCh y2 = true)
    (hy3 : isDigitCh y3 = true) (hy4 : isDigitCh y4 = true)
    (hm1 : isDigitCh m1 = true) (hm2 : isDigitCh m2 = true)
    (hd1 : isDigitCh d1 = true) (hd2 : isDigitCh d2 = true)
    (hz1 : isDigitCh z1 = true) (hz2 : isDigitCh z2 = true)
    (hz3 : isDigitCh z3 = true) (hz4 : isDigitCh z4 = true)
    (hn1 : isDigitCh n1 = true) (hn2 : isDigitCh n2 = true)
    (he1 : isDigitCh e1 = true) (he2 : isDigitCh e2 = true) :
    (jsStrLtL [y1, y2, y3, y4, '-', m1, m2, '-', d1, d2]
      [z1, z2, z3, z4, '-', n1, n2, '-', e1, e2] = true) ↔
    (dateLtB
      ⟨dval y1 * 1000 + dval y2 * 100 + dval y3 * 10 + dval y4,
       dval m1 * 10 + dval m2, dval d1 * 10 + dval d2⟩
      ⟨dval z1 * 1000 + dval z2 * 100 + dval z3 * 10 + dval z4,
       dval n1 * 10 + dval n2, dval e1 * 10 + dval e2⟩ = true) := by
  obtain ⟨hy1a, hy1b⟩ := isDigitCh_bounds hy1
  obtain ⟨hy2a, hy2b⟩ := isDigitCh_bounds hy2
  obtain ⟨hy3a, hy3b⟩ := isDigitCh_bounds hy3
  obtain ⟨hy4a, hy4b⟩ := isDigitCh_bounds hy4
  obtain ⟨hm1a, hm1b⟩ := isDigitCh_bounds hm1
  obtain ⟨hm2a, hm2b⟩ := isDigitCh_bounds hm2
  obtain ⟨hd1a, hd1b⟩ := isDigitCh_bounds hd1
  obtain ⟨hd2a, hd2b⟩ := isDigitCh_bounds hd2
  obtain ⟨hz1a, hz1b⟩ := isDigitCh_bounds hz1
  obtain ⟨hz2a, hz2b⟩ := isDigitCh_bounds hz2
  obtain ⟨hz3a, hz3b⟩ := isDigitCh_bounds hz3
  obtain ⟨hz4a, hz4b⟩ := isDigitCh_bounds hz4
  obtain ⟨hn1a, hn1b⟩ := isDigitCh_bounds hn1
  obtain ⟨hn2a, hn2b⟩ := isDigitCh_bounds hn2
  obtain ⟨he1a, he1b⟩ := isDigitCh_bounds he1
  obtain ⟨he2a, he2b⟩ := isDigitCh_bounds he2
  simp only [jsStrLtL_cons, jsStrLtL_nil, dateLtB, dval_eq, Bool.or_eq_true,
    Bool.and_eq_true, decide_eq_true_eq, beq_iff_eq, Bool.false_eq_true,
    show ('-').toNat = 45 from rfl]
  simp only [Nat.lt_irrefl, false_or, true_and, and_false, or_false, false_and]
  omega

lemma parseRawL_inv {l : List Char} {dt : CalDate} (h : parseRawL l = some dt) :
    ∃ y1 y2 y3 y4 m1 m2 d1 d2,
      l = [y1, y2, y3, y4, '-', m1, m2, '-', d1, d2] ∧
      isDigitCh y1 = true ∧ isDigitCh y2 = true ∧ isDigitCh y3 = true ∧
      isDigitCh y4 = true ∧ isDigitCh m1 = true ∧ isDigitCh m2 = true ∧
      isDigitCh d1 = true ∧ isDigitCh d2 = true ∧
      dt = ⟨dval y1 * 1000 + dval y2 * 100 + dval y3 * 10 + dval y4,
            dval m1 * 10 + dval m2, dval d1 * 10 + dval d2⟩ := by
  match l with
  | [] => simp [parseRawL] at h
  | [c1] => simp [parseRawL] at h
  | [c1, c2] => simp [parseRawL] at h
  | [c1, c2, c3] => simp [parseRawL] at h
  | [c1, c2, c3, c4] => simp [parseRawL] at h
  | [c1, c2, c3, c4, c5] => simp [parseRawL] at h
  | [c1, c2, c3, c4, c5, c6] => simp [parseRawL] at h
  | [c1, c2, c3, c4, c5, c6, c7] => simp [parseRawL] at h
  | [c1, c2, c3, c4, c5, c6, c7, c8] => simp [parseRawL] at h
  | [c1, c2, c3, c4, c5, c6, c7, c8, c9] => simp [parseRawL] at h
  | c1 :: c2 :: c3 :: c4 :: c5 :: c6 :: c7 :: c8 :: c9 :: c10 :: c11 :: rest =>
    simp [parseRawL] at h
  | [c1, c2, c3, c4, c5, c6, c7, c8, c9, c10] =>
    simp only [parseRawL] at h
    by_cases hc : (isDigitCh c1 && isDigitCh c2 && isDigitCh c3 && isDigitCh c4 &&
        (c5 == '-') && isDigitCh c6 && isDigitCh c7 &&
        (c8 == '-') && isDigitCh c9 && isDigitCh c10) = true
    · rw [if_pos hc] at h
      simp only [Bool.and_eq_true, beq_iff_eq] at hc
      obtain ⟨⟨⟨⟨⟨⟨⟨⟨⟨h1, h2⟩, h3⟩, h4⟩, h5⟩, h6⟩, h7⟩, h8⟩, h9⟩, h10⟩ := hc
      subst h5; subst h8
      exact ⟨c1, c2, c3, c4, c6, c7, c9, c10, rfl, h1, h2, h3, h4, h6, h7, h9, h10,
        (Option.some.inj h).symm⟩
    · rw [if_neg hc] at h
      exact absurd h (by simp)

/-- Chronological trichotomy, in the Boolean form the handlers use. -/
lemma dateLtB_false_iff (a b : CalDate) :
    dateLtB a b = false ↔ dateLeB b a = true := by
  cases a with
  | mk ya ma da =>
    cases b with
    | mk yb mb db =>
      simp only [dateLtB, dateLeB, Bool.or_eq_true, Bool.and_eq_true,
        decide_eq_true_eq, beq_iff_eq, CalDate.mk.injEq, Bool.or_eq_false_iff,
        Bool.and_eq_false_iff, decide_eq_false_iff_not, beq_eq_false_iff_ne,
        ne_eq]
      omega

/-- Main order-agreement result: on format-correct date strings, the JS string
order `<=` agrees with calendar order. -/
lemma jsStrLe_iff_dateLeB {a b : String} {da db : CalDate}
    (ha : parseRaw a = some da) (hb : parseRaw b = some db) :
    jsStrLe a b = true ↔ dateLeB da db = true := by
  obtain ⟨y1, y2, y3, y4, m1, m2, d1, d2, hla, hay1, hay2, hay3, hay4, ham1, ham2,
    had1, had2, hda⟩ := parseRawL_inv ha
  obtain ⟨z1, z2, z3, z4, n1, n2, e1, e2, hlb, hbz1, hbz2, hbz3, hbz4, hbn1, hbn2,
    hbe1, hbe2, hdb⟩ := parseRawL_inv hb
  have hlt : jsStrLt b a = true ↔ dateLtB db da = true := by
    rw [jsStrLt, hla, hlb]
    subst hda hdb
    exact jsStrLtL_pattern z1 z2 z3 z4 n1 n2 e1 e2 y1 y2 y3 y4 m1 m2 d1 d2
      hbz1 hbz2 hbz3 hbz4 hbn1 hbn2 hbe1 hbe2 hay1 hay2 hay3 hay4 ham1 ham2 had1 had2
  rw [jsStrLe, ← dateLtB_false_iff db da]
  cases hx : jsStrLt b a <;> cases hy : dateLtB db da <;> simp_all

/-! ## Basic facts about parsing and the reducers -/

lemma parseDate_raw {s : String} {dt : CalDate} (h : parseDate s = some dt) :
    parseRaw s = some dt ∧ validCalDate dt = true := by
  unfold parseDate at h
  cases hr : parseRaw s with
  | none => rw [hr] at h; exact absurd h (by simp)
  | some d0 =>
    rw [hr] at h
    have h2 : (if validCalDate d0 = true then some d0 else none) = some dt := h
    by_cases hv : validCalDate d0 = true
    · rw [if_pos hv] at h2
      cases h2; exact ⟨rfl, hv⟩
    · rw [if_neg hv] at h2; exact absurd h2 (by simp)

lemma isCompleteDate_eq_isSome (s : String) :
    isCompleteDate s = (parseDate s).isSome := by
  unfold isCompleteDate parseDate
  cases parseRaw s with
  | none => rfl
  | some d0 =>
    by_cases hv : validCalDate d0 = true
    · simp [hv]
    · simp [hv]

lemma parseDate_ne_empty {s : String} {dt : CalDate} (h : parseDate s = some dt) :
    (s == "") = false := by
  obtain ⟨hr, -⟩ := parseDate_raw h
  obtain ⟨y1, y2, y3, y4, m1, m2, d1, d2, hl, -⟩ := parseRawL_inv hr
  have : s ≠ "" := by
    intro he
    rw [he] at hl
    exact absurd hl (by simp [String.data])
  simpa using this

lemma setPickupDate_pickup (value : String) (s : BookingState) :
    (setPickupDate value s).pickupDate = value := by
  simp only [setPickupDate]
  split <;> rfl

lemma setPickupDate_others (value : String) (s : BookingState) :
    (setPickupDate value s).selectedVehicle = s.selectedVehicle ∧
    (setPickupDate value s).selectedAddons = s.selectedAddons ∧
    (setPickupDate value s).addons = s.addons := by
  simp only [setPickupDate]
  split <;> exact ⟨rfl, rfl, rfl⟩

/-! ## C10: the Reset frame -/

/-- C10: `Reset` clears the selected vehicle, both dates, the selected add-on
ids and the confirmation flag, while leaving the vehicle catalog, the
available add-ons, the loading flag and the error field unchanged (so the
add-ons fetched for the previously selected vehicle stay populated). -/
theorem spec_C10 (s : BookingState) :
    (resetBooking s).selectedVehicle = none ∧
    (resetBooking s).pickupDate = "" ∧
    (resetBooking s).dropoffDate = "" ∧
    (resetBooking s).selectedAddons = [] ∧
    (resetBooking s).showConfirmationFlag = false ∧
    (resetBooking s).vehicles = s.vehicles ∧
    (resetBooking s).addons = s.addons ∧
    (resetBooking s).loading = s.loading ∧
    (resetBooking s).error = s.error :=
  ⟨rfl, rfl, rfl, rfl, rfl, rfl, rfl, rfl, rfl⟩

/-! ## C4: SelectVehicle -/

/-- C4: `SelectVehicle(v)` sets the selected vehicle to `v`, unconditionally
clears the selected add-on ids and the available add-ons, and clears both
dates exactly when a vehicle with a different id was previously selected;
reselecting the current id (or selecting with no prior vehicle) leaves the
dates unchanged. -/
theorem spec_C4 (s : BookingState) (v : Vehicle) :
    (selectVehicle v s).selectedVehicle = some v ∧
    (selectVehicle v s).selectedAddons = [] ∧
    (selectVehicle v s).addons = [] ∧
    ((∃ w, s.selectedVehicle = some w ∧ w.id ≠ v.id) →
      (selectVehicle v s).pickupDate = "" ∧ (selectVehicle v s).dropoffDate = "") ∧
    ((∀ w, s.selectedVehicle = some w → w.id = v.id) →
      (selectVehicle v s).pickupDate = s.pickupDate ∧
      (selectVehicle v s).dropoffDate = s.dropoffDate) := by
  cases hv : s.selectedVehicle with
  | none =>
    refine ⟨?_, ?_, ?_, ?_, ?_⟩
    · simp [selectVehicle, hv]
    · simp [selectVehicle, hv]
    · simp [selectVehicle, hv]
    · rintro ⟨w, hw, -⟩
      cases hw
    · intro _
      constructor <;> simp [selectVehicle, hv]
  | some w =>
    by_cases hid : w.id = v.id
    · refine ⟨?_, ?_, ?_, ?_, ?_⟩
      · simp [selectVehicle, hv]
      · simp [selectVehicle, hv]
      · simp [selectVehicle, hv]
      · rintro ⟨w', hw', hne⟩
        cases hw'
        exact absurd hid hne
      · intro _
        constructor <;> simp [selectVehicle, hv, hid]
    · refine ⟨?_, ?_, ?_, ?_, ?_⟩
      · simp [selectVehicle, hv]
      · simp [selectVehicle, hv]
      · simp [selectVehicle, hv]
      · intro _
        constructor <;> simp [selectVehicle, hv, hid]
      · intro hall
        exact absurd (hall w rfl) hid

/-- Witness for C4 at concrete states: changing from vehicle id 1 to id 2
clears the dates; reselecting id 1 keeps them. -/
theorem spec_C4_witness :
    ((selectVehicle ⟨2, "SUV", "suv", 3200⟩
        { initialState with
            selectedVehicle := some ⟨1, "Sedan", "sedan", 2500⟩
            pickupDate := "2026-10-12"
            dropoffDate := "2026-10-15" }).pickupDate = "" ∧
      (selectVehicle ⟨2, "SUV", "suv", 3200⟩
        { initialState with
            selectedVehicle := some ⟨1, "Sedan", "sedan", 2500⟩
            pickupDate := "2026-10-12"
            dropoffDate := "2026-10-15" }).dropoffDate = "") ∧
    ((selectVehicle ⟨1, "Sedan", "sedan", 2500⟩
        { initialState with
            selectedVehicle := some ⟨1, "Sedan", "sedan", 2500⟩
            pickupDate := "2026-10-12"
            dropoffDate := "2026-10-15" }).pickupDate = "2026-10-12" ∧
      (selectVehicle ⟨1, "Sedan", "sedan", 2500⟩
        { initialState with
            selectedVehicle := some ⟨1, "Sedan", "sedan", 2500⟩
            pickupDate := "2026-10-12"
            dropoffDate := "2026-10-15" }).dropoffDate = "2026-10-15") :=
  ⟨(spec_C4 _ ⟨2, "SUV", "suv", 3200⟩).2.2.2.1
      ⟨⟨1, "Sedan", "sedan", 2500⟩, rfl, by decide⟩,
    (spec_C4 _ ⟨1, "Sedan", "sedan", 2500⟩).2.2.2.2
      (fun w hw => by cases hw; rfl)⟩

/-! ## C7: the validity gate -/

/-- C7: the validity gate holds exactly when a vehicle is selected, both date
strings are set and the computed day count is positive, and its value never
depends on the selected add-on ids. -/
theorem spec_C7 (s : BookingState) :
    (selectIsBookingValid s = true ↔
      (s.selectedVehicle.isSome = true ∧ s.pickupDate ≠ "" ∧ s.dropoffDate ≠ "" ∧
        0 < selectRentalDays s)) ∧
    (∀ l : List Nat,
      selectIsBookingValid { s with selectedAddons := l } = selectIsBookingValid s) := by
  constructor
  · simp [selectIsBookingValid, and_assoc]
  · intro l
    rfl

/-! ## C8: summary is `none` exactly on incomplete selections -/

/-- C8: the booking-summary derivation yields a summary object exactly when a
vehicle and both dates are set and the computed day count is positive;
otherwise it yields the distinguished `none`, never a zero-valued summary. -/
theorem spec_C8 (s : BookingState) :
    (selectBookingSummary s).isSome = true ↔
      (s.selectedVehicle.isSome = true ∧ s.pickupDate ≠ "" ∧ s.dropoffDate ≠ "" ∧
        0 < selectRentalDays s) := by
  cases hv : s.selectedVehicle with
  | none => simp [selectBookingSummary, hv]
  | some v =>
    simp only [selectBookingSummary, hv]
    by_cases hc : (s.pickupDate == "" || s.dropoffDate == "" ||
        selectRentalDays s == 0) = true
    · rw [if_pos hc]
      simp only [Bool.or_eq_true, beq_iff_eq] at hc
      simp only [Option.isSome_none, Bool.false_eq_true, false_iff]
      intro hcon
      rcases hc with (hc | hc) | hc
      · exact hcon.2.1 hc
      · exact hcon.2.2.1 hc
      · have := hcon.2.2.2
        omega
    · rw [if_neg hc]
      simp only [Bool.or_eq_true, beq_iff_eq, not_or] at hc
      simp only [Option.isSome_some, true_iff]
      refine ⟨trivial, hc.1.1, hc.1.2, ?_⟩
      have := hc.2
      omega

/-! ## C2, C3, C9: the date transitions -/

lemma parseDate_complete {s : String} {dt : CalDate} (h : parseDate s = some dt) :
    isCompleteDate s = true := by
  rw [isCompleteDate_eq_isSome, h]
  rfl

lemma jsStrLe_iff_of_parseDate {a b : String} {da db : CalDate}
    (ha : parseDate a = some da) (hb : parseDate b = some db) :
    jsStrLe a b = true ↔ dateLeB da db = true :=
  jsStrLe_iff_dateLeB (parseDate_raw ha).1 (parseDate_raw hb).1

/-- C2: `SetPickupDate(d)` with a non-empty, well-formed `d` strictly before
the evaluation day leaves the whole booking state unchanged and only raises
the pickup field error; any other `d` is stored as the pickup date. -/
theorem spec_C2 (s : BookingState) (ui : DateUi) (today : CalDate) (value : String) :
    (∀ dv, parseDate value = some dv → dateLtB dv today = true →
        handlePickupChange today value s ui =
          (s, { ui with pickupError := some pickupErrKey })) ∧
    ((∀ dv, parseDate value = some dv → dateLtB dv today = false) →
        (handlePickupChange today value s ui).1.pickupDate = value) := by
  constructor
  · intro dv hp hlt
    have hne := parseDate_ne_empty hp
    have hcomp := parseDate_complete hp
    simp only [handlePickupChange, hne, hcomp, Bool.not_false, Bool.and_self, if_true,
      hp, hlt]
  · intro hall
    cases hp : parseDate value with
    | none =>
      have hcomp : isCompleteDate value = false := by
        rw [isCompleteDate_eq_isSome, hp]
        rfl
      simp only [handlePickupChange, hcomp, Bool.and_false, Bool.false_eq_true,
        if_false, setPickupDate_pickup]
    | some dv =>
      have hlt := hall dv hp
      have hne := parseDate_ne_empty hp
      have hcomp := parseDate_complete hp
      simp only [handlePickupChange, hne, hcomp, Bool.not_false, Bool.and_self,
        if_true, hp, hlt, Bool.false_eq_true, if_false]
      split
      · simp [setDropoffDate, setPickupDate_pickup]
      · split
        · simp [setPickupDate_pickup]
        · simp [setPickupDate_pickup]

/-- Witness for C2: on 2026-10-12 the past pickup `2026-10-01` is rejected
with no state change, while `2026-10-20` is stored. -/
theorem spec_C2_witness :
    handlePickupChange ⟨2026, 10, 12⟩ "2026-10-01" initialState ⟨none, none⟩ =
      (initialState, { pickupError := some pickupErrKey, dropoffError := none }) ∧
    (handlePickupChange ⟨2026, 10, 12⟩ "2026-10-20" initialState
        ⟨none, none⟩).1.pickupDate = "2026-10-20" := by
  constructor
  · exact (spec_C2 initialState ⟨none, none⟩ ⟨2026, 10, 12⟩ "2026-10-01").1
      ⟨2026, 10, 1⟩ (by decide) (by decide)
  · refine (spec_C2 initialState ⟨none, none⟩ ⟨2026, 10, 12⟩ "2026-10-20").2 ?_
    intro dv h
    have he : parseDate "2026-10-20" = some ⟨2026, 10, 20⟩ := by decide
    rw [he] at h
    cases h
    decide

/-- C3: `SetDropoffDate(d)` with a well-formed `d` that is in the past, or not
strictly later than a set well-formed pickup, is rejected with no state
change; any other `d` is stored as the dropoff date. -/
theorem spec_C3 (s : BookingState) (ui : DateUi) (today : CalDate) (value : String) :
    (∀ dv, parseDate value = some dv →
        (dateLtB dv today = true ∨
          (∃ pp, parseDate s.pickupDate = some pp ∧ dateLtB pp dv = false)) →
        (handleDropoffChange today value s ui).1 = s) ∧
    ((∀ dv, parseDate value = some dv →
        dateLtB dv today = false ∧
        (∀ pp, parseDate s.pickupDate = some pp → dateLtB pp dv = true)) →
      (handleDropoffChange today value s ui).1.dropoffDate = value) := by
  constructor
  · intro dv hp hrej
    have hne := parseDate_ne_empty hp
    have hcomp := parseDate_complete hp
    by_cases hpast : dateLtB dv today = true
    · simp only [handleDropoffChange, hne, hcomp, Bool.not_false, Bool.and_self,
        if_true, hp, hpast]
    · have hpast' : dateLtB dv today = false := by
        cases h : dateLtB dv today
        · rfl
        · exact absurd h hpast
      rcases hrej with h | ⟨pp, hpp, hle⟩
      · exact absurd h hpast
      · have hne2 := parseDate_ne_empty hpp
        have hcomp2 := parseDate_complete hpp
        simp only [handleDropoffChange, hne, hcomp, Bool.not_false, Bool.and_self,
          if_true, hp, hpast', Bool.false_eq_true, if_false, hne2, hcomp2, hpp, hle]
  · intro hall
    cases hp : parseDate value with
    | none =>
      have hcomp : isCompleteDate value = false := by
        rw [isCompleteDate_eq_isSome, hp]
        rfl
      simp only [handleDropoffChange, hcomp, Bool.and_false, Bool.false_eq_true,
        if_false, setDropoffDate]
    | some dv =>
      obtain ⟨hpast, hpk⟩ := hall dv hp
      have hne := parseDate_ne_empty hp
      have hcomp := parseDate_complete hp
      cases hpp : parseDate s.pickupDate with
      | none =>
        have hcomp2 : isCompleteDate s.pickupDate = false := by
          rw [isCompleteDate_eq_isSome, hpp]
          rfl
        have hval : isValidDate today value = true := by
          simp [isValidDate, hne, hp, hpast]
        have hvd2 : isValidDropoffDate value s.pickupDate = true := by
          simp [isValidDropoffDate, hne, hp, hpp, ite_self]
        simp only [handleDropoffChange, hne, hcomp, Bool.not_false, Bool.and_self,
          if_true, hp, hpast, Bool.false_eq_true, if_false, hcomp2, Bool.and_false,
          Bool.false_and, hval, hvd2, Bool.not_true]
        split <;> rfl
      | some pp =>
        have hlt := hpk pp hpp
        have hne2 := parseDate_ne_empty hpp
        have hcomp2 := parseDate_complete hpp
        have hval : isValidDate today value = true := by
          simp [isValidDate, hne, hp, hpast]
        have hvd2 : isValidDropoffDate value s.pickupDate = true := by
          simp [isValidDropoffDate, hne, hne2, hp, hpp, hlt]
        simp only [handleDropoffChange, hne, hcomp, Bool.not_false, Bool.and_self,
          if_true, hp, hpast, Bool.false_eq_true, if_false, hne2, hcomp2, hpp, hlt,
          Bool.not_true, Bool.and_false, hval, hvd2]
        rfl

/-- Witness for C3: with pickup `2026-10-14` set, the dropoff `2026-10-13`
(not after the pickup) is rejected with no state change, while `2026-10-20`
is stored. -/
theorem spec_C3_witness :
    (handleDropoffChange ⟨2026, 10, 12⟩ "2026-10-13"
        { initialState with pickupDate := "2026-10-14" } ⟨none, none⟩).1 =
      { initialState with pickupDate := "2026-10-14" } ∧
    (handleDropoffChange ⟨2026, 10, 12⟩ "2026-10-20"
        { initialState with pickupDate := "2026-10-14" } ⟨none, none⟩).1.dropoffDate =
      "2026-10-20" := by
  constructor
  · exact (spec_C3 { initialState with pickupDate := "2026-10-14" } ⟨none, none⟩
      ⟨2026, 10, 12⟩ "2026-10-13").1 ⟨2026, 10, 13⟩ (by decide)
      (Or.inr ⟨⟨2026, 10, 14⟩, by decide, by decide⟩)
  · refine (spec_C3 { initialState with pickupDate := "2026-10-14" } ⟨none, none⟩
      ⟨2026, 10, 12⟩ "2026-10-20").2 ?_
    intro dv h
    have he : parseDate "2026-10-20" = some ⟨2026, 10, 20⟩ := by decide
    rw [he] at h
    cases h
    refine ⟨by decide, ?_⟩
    intro pp h2
    have he2 : parseDate "2026-10-14" = some ⟨2026, 10, 14⟩ := by decide
    rw [show ({ initialState with pickupDate := "2026-10-14" } :
      BookingState).pickupDate = "2026-10-14" from rfl, he2] at h2
    cases h2
    decide

/-- C9: when a well-formed dropoff is set and an accepted (well-formed, not
past) pickup `p` arrives, the dropoff is cleared exactly when it is equal to
or earlier than `p`, and left untouched when it is strictly later. -/
theorem spec_C9 (s : BookingState) (ui : DateUi) (today : CalDate) (p : String)
    (dd dp : CalDate) (hdrop : parseDate s.dropoffDate = some dd)
    (hp : parseDate p = some dp) (hnotpast : dateLtB dp today = false) :
    ((handlePickupChange today p s ui).1.dropoffDate = "" ↔ dateLeB dd dp = true) ∧
    (dateLtB dp dd = true → (handlePickupChange today p s ui).1.dropoffDate =
      s.dropoffDate) := by
  have hnep := parseDate_ne_empty hp
  have hcompp := parseDate_complete hp
  have hned := parseDate_ne_empty hdrop
  have hcompd := parseDate_complete hdrop
  have hnedp : s.dropoffDate ≠ "" := by
    intro h
    rw [h] at hned
    simp at hned
  have hvd : isValidDropoffDate s.dropoffDate p = dateLtB dp dd := by
    simp only [isValidDropoffDate, hned, hnep, Bool.or_self, Bool.false_eq_true,
      if_false, hdrop, hp, Bool.or_false]
  have hjs := jsStrLe_iff_of_parseDate hdrop hp
  simp only [handlePickupChange, hnep, hcompp, Bool.not_false, Bool.and_self,
    if_true, hp, hnotpast, Bool.false_eq_true, if_false, hned, hcompd, hvd]
  by_cases hlt : dateLtB dp dd = true
  · have hle : dateLeB dd dp = false := by
      cases h2 : dateLeB dd dp
      · rfl
      · have := (dateLtB_false_iff dp dd).mpr h2
        rw [this] at hlt
        exact absurd hlt (by simp)
    have hjs' : jsStrLe s.dropoffDate p = false := by
      cases hx : jsStrLe s.dropoffDate p
      · rfl
      · have := hjs.mp hx
        rw [hle] at this
        exact absurd this (by simp)
    simp only [hlt, Bool.not_true, Bool.and_false, Bool.false_eq_true, if_false,
      Bool.and_true, Bool.and_self, if_true, setPickupDate, hjs', hle]
    constructor
    · simp [hnedp]
    · intro h
      trivial
  · have hlt' : dateLtB dp dd = false := by
      cases h : dateLtB dp dd
      · rfl
      · exact absurd h hlt
    have hle : dateLeB dd dp = true := (dateLtB_false_iff dp dd).mp hlt'
    have hjs' : jsStrLe s.dropoffDate p = true := hjs.mpr hle
    simp only [hlt', Bool.not_false, Bool.and_true, Bool.and_self, if_true,
      setDropoffDate, hle]
    constructor
    · simp
    · intro h
      exact absurd h (by simp)

/-- Witness for C9: with dropoff `2026-10-15` set, the accepted pickup
`2026-10-20` clears it (`2026-10-15 ≤ 2026-10-20`). -/
theorem spec_C9_witness :
    ((handlePickupChange ⟨2026, 10, 1⟩ "2026-10-20"
        { initialState with dropoffDate := "2026-10-15" } ⟨none, none⟩).1.dropoffDate =
          "" ↔ dateLeB ⟨2026, 10, 15⟩ ⟨2026, 10, 20⟩ = true) ∧
    (dateLtB ⟨2026, 10, 20⟩ ⟨2026, 10, 15⟩ = true →
      (handlePickupChange ⟨2026, 10, 1⟩ "2026-10-20"
        { initialState with dropoffDate := "2026-10-15" } ⟨none, none⟩).1.dropoffDate =
          ({ initialState with dropoffDate := "2026-10-15" } :
            BookingState).dropoffDate) :=
  spec_C9 { initialState with dropoffDate := "2026-10-15" } ⟨none, none⟩
    ⟨2026, 10, 1⟩ "2026-10-20" ⟨2026, 10, 15⟩ ⟨2026, 10, 20⟩
    (by decide) (by decide) (by decide)

/-! ## C5: ToggleAddon and the add-on subset invariant -/

lemma handlePickupChange_selectedAddons (t : CalDate) (v : String)
    (s : BookingState) (ui : DateUi) :
    (handlePickupChange t v s ui).1.selectedAddons = s.selectedAddons := by
  simp only [handlePickupChange, setPickupDate, setDropoffDate]
  repeat' split
  all_goals rfl

lemma handleDropoffChange_selectedAddons (t : CalDate) (v : String)
    (s : BookingState) (ui : DateUi) :
    (handleDropoffChange t v s ui).1.selectedAddons = s.selectedAddons := by
  simp only [handleDropoffChange, setDropoffDate]
  repeat' split
  all_goals rfl

/-- Every transition keeps the selected add-on ids duplicate-free. -/
lemma step_nodup {s : BookingState} (h : s.selectedAddons.Nodup) (a : Action) :
    (step s a).selectedAddons.Nodup := by
  cases a with
  | selectVehicleA v =>
    show (selectVehicle v s).selectedAddons.Nodup
    simp [selectVehicle]
  | pickupChangeA t val =>
    show ((handlePickupChange t val s ⟨none, none⟩).1.selectedAddons).Nodup
    rw [handlePickupChange_selectedAddons]
    exact h
  | dropoffChangeA t val =>
    show ((handleDropoffChange t val s ⟨none, none⟩).1.selectedAddons).Nodup
    rw [handleDropoffChange_selectedAddons]
    exact h
  | toggleAddonA i =>
    show (toggleAddon i s).selectedAddons.Nodup
    by_cases hc : s.selectedAddons.contains i = true
    · simp only [toggleAddon, hc, if_true]
      exact h.erase i
    · have hc' : s.selectedAddons.contains i = false := by
        cases hx : s.selectedAddons.contains i
        · rfl
        · exact absurd hx hc
      have hm : i ∉ s.selectedAddons := by simpa using hc'
      simp only [toggleAddon, hc', Bool.false_eq_true, if_false]
      simp [List.nodup_append, h, hm]
  | bookNowA =>
    show (handleBookNow s).selectedAddons.Nodup
    simp only [handleBookNow, showConfirmation]
    split <;> exact h
  | hideConfirmationA => exact h
  | resetA => simp [step, resetBooking]
  | vehiclesPendingA => exact h
  | vehiclesFulfilledA vs => exact h
  | vehiclesRejectedA m => exact h
  | addonsPendingA =>
    show (fetchAddonsPending s).selectedAddons.Nodup
    simp only [fetchAddonsPending]
    split <;> exact h
  | addonsFulfilledA origin payload => exact h
  | addonsRejectedA => exact h

lemma applyActions_nodup (acts : List Action) :
    ∀ s : BookingState, s.selectedAddons.Nodup →
      (applyActions acts s).selectedAddons.Nodup := by
  induction acts with
  | nil => intro s h; exact h
  | cons a t ih =>
    intro s h
    exact ih _ (step_nodup h a)

/-- C5 counterexample: from the initial state, `ToggleAddon(5)` — an id that
is not among the (empty) available add-ons — is *not* a no-op: it adds `5` to
the selected set, so the selected ids are not a subset of the available
add-on ids in this reachable state. -/
theorem spec_C5_cex :
    5 ∈ (applyActions [Action.toggleAddonA 5] initialState).selectedAddons ∧
    5 ∉ ((applyActions [Action.toggleAddonA 5] initialState).addons.map Addon.id) ∧
    applyActions [Action.toggleAddonA 5] initialState ≠ initialState := by
  decide

/-- C5 amended: `ToggleAddon(id)` toggles membership of `id` in the selected
set for *every* id, available or not (the code accepts all toggles and lets
pricing exclude unresolvable ids); the subset invariant does not hold, but in
every reachable state the selected add-on ids are duplicate-free, so the
toggle is a strict membership flip. -/
theorem spec_C5_amended (acts : List Action) (i : Nat) :
    ((applyActions acts initialState).selectedAddons.Nodup) ∧
    (i ∈ (toggleAddon i (applyActions acts initialState)).selectedAddons ↔
      i ∉ (applyActions acts initialState).selectedAddons) := by
  have hnd := applyActions_nodup acts initialState (by simp [initialState])
  refine ⟨hnd, ?_⟩
  by_cases hc : (applyActions acts initialState).selectedAddons.contains i = true
  · have hm : i ∈ (applyActions acts initialState).selectedAddons := by simpa using hc
    simp only [toggleAddon, hc, if_true]
    simp [hnd.mem_erase_iff, hm]
  · have hc' : (applyActions acts initialState).selectedAddons.contains i = false := by
      cases hx : (applyActions acts initialState).selectedAddons.contains i
      · rfl
      · exact absurd hx hc
    have hm : i ∉ (applyActions acts initialState).selectedAddons := by simpa using hc'
    simp only [toggleAddon, hc', Bool.false_eq_true, if_false]
    simp [hm]

/-! ## C6: the pricing formulas -/

/-- Modelled from the spec: `addonsCost = Σ (addon.costPerDay × days)` over
every currently *selected* add-on id, resolved against the current
available-add-ons catalog; an id that does not resolve contributes nothing.
Stated for comparison with the catalog-driven sum in
`selectBookingSummary`. -/
def specAddonsCost (catalog : List Addon) (sel : List Nat) (days : Nat) : ℚ :=
  (sel.map (fun i =>
    match catalog.find? (fun a => a.id == i) with
    | some a => a.costPerDay * (days : ℚ)
    | none => 0)).sum

lemma foldl_add_map (l : List Addon) (f : Addon → ℚ) (c : ℚ) :
    l.foldl (fun sum a => sum + f a) c = c + (l.map f).sum := by
  induction l generalizing c with
  | nil => simp
  | cons a t ih =>
    simp only [List.foldl_cons, List.map_cons, List.sum_cons, ih]
    ring

lemma sum_filter_or (l : List Addon) (p q : Addon → Bool) (f : Addon → ℚ)
    (h : ∀ a ∈ l, ¬(p a = true ∧ q a = true)) :
    ((l.filter fun a => p a || q a).map f).sum =
      ((l.filter p).map f).sum + ((l.filter q).map f).sum := by
  induction l with
  | nil => simp
  | cons a t ih =>
    have ht : ∀ x ∈ t, ¬(p x = true ∧ q x = true) :=
      fun x hx => h x (List.mem_cons_of_mem a hx)
    by_cases hp : p a = true
    · have hq : q a = false := by
        cases hqa : q a
        · rfl
        · exact absurd ⟨hp, hqa⟩ (h a (List.mem_cons_self a t))
      simp only [List.filter_cons, hp, hq, Bool.true_or, if_true, Bool.false_eq_true,
        if_false, List.map_cons, List.sum_cons, ih ht]
      ring
    · have hp' : p a = false := by
        cases hpa : p a
        · rfl
        · exact absurd hpa hp
      by_cases hq : q a = true
      · simp only [List.filter_cons, hp', hq, Bool.false_or, if_true,
          Bool.false_eq_true, if_false, List.map_cons, List.sum_cons, ih ht]
        ring
      · have hq' : q a = false := by
          cases hqa : q a
          · rfl
          · exact absurd hqa hq
        simp only [List.filter_cons, hp', hq', Bool.or_self, Bool.false_eq_true,
          if_false, ih ht]

lemma sum_filter_eq_find (catalog : List Addon) (i : Nat) (f : Addon → ℚ)
    (hc : (catalog.map Addon.id).Nodup) :
    ((catalog.filter fun a => a.id == i).map f).sum =
      (match catalog.find? (fun a => a.id == i) with
       | some a => f a
       | none => 0) := by
  induction catalog with
  | nil => simp
  | cons c t ih =>
    have hcn : (t.map Addon.id).Nodup := by
      have := hc
      simp only [List.map_cons, List.nodup_cons] at this
      exact this.2
    have hnotin : c.id ∉ t.map Addon.id := by
      have := hc
      simp only [List.map_cons, List.nodup_cons] at this
      exact this.1
    by_cases hid : (c.id == i) = true
    · have hide : c.id = i := by simpa using hid
      have hf : List.find? (fun a => a.id == i) (c :: t) = some c :=
        List.find?_cons_of_pos _ hid
      have hnone : t.filter (fun a => a.id == i) = [] := by
        rw [List.filter_eq_nil_iff]
        intro a ha
        have hmem : a.id ∈ t.map Addon.id := List.mem_map_of_mem _ ha
        have hne : a.id ≠ i := by
          intro he
          rw [he, ← hide] at hmem
          exact hnotin hmem
        simp [hne]
      simp [List.filter_cons, hid, hf, hnone]
    · have hid' : (c.id == i) = false := by
        cases hx : (c.id == i)
        · rfl
        · exact absurd hx hid
      have hf : List.find? (fun a => a.id == i) (c :: t) = List.find? (fun a => a.id == i) t :=
        List.find?_cons_of_neg _ (by simp [hid'])
      simp only [List.filter_cons, hid', Bool.false_eq_true, if_false, ih hcn, hf]

/-- The catalog-order sum computed by the code equals the selection-order sum
described by the spec, whenever the selected ids and the catalog ids are
duplicate-free. -/
lemma code_addonsCost_eq_spec (catalog : List Addon) (sel : List Nat) (days : Nat)
    (hs : sel.Nodup) (hc : (catalog.map Addon.id).Nodup) :
    ((catalog.filter fun a => sel.contains a.id).map
        (fun a => a.costPerDay * (days : ℚ))).sum =
      specAddonsCost catalog sel days := by
  induction sel with
  | nil => simp [specAddonsCost]
  | cons i rest ih =>
    have hi : i ∉ rest := (List.nodup_cons.mp hs).1
    have hrest : rest.Nodup := (List.nodup_cons.mp hs).2
    have hsplit : (catalog.filter fun a => (i :: rest).contains a.id) =
        (catalog.filter fun a => (a.id == i) || rest.contains a.id) := by
      apply List.filter_congr
      intro a _
      cases hx : (a.id == i) <;> simp_all [List.contains_cons]
    have hdisj : ∀ a ∈ catalog,
        ¬((a.id == i) = true ∧ rest.contains a.id = true) := by
      rintro a - ⟨h1, h2⟩
      have h1' : a.id = i := by simpa using h1
      have h2' : a.id ∈ rest := by simpa using h2
      rw [h1'] at h2'
      exact hi h2'
    rw [hsplit, sum_filter_or catalog _ _ _ hdisj,
      sum_filter_eq_find catalog i _ hc, ih hrest]
    simp [specAddonsCost]

/-- C6: whenever the booking summary is defined (and selected ids and catalog
ids are duplicate-free, as they are in every reachable state and catalog),
its fields satisfy the pricing rules: `baseCost = costPerDay × days`,
`addonsCost` is the sum over selected ids resolving against the current
catalog, `subtotal = baseCost + addonsCost`, `tax = subtotal × 0.18`,
`total = subtotal + tax`. -/
theorem spec_C6 (s : BookingState) (bs : BookingSummary)
    (h : selectBookingSummary s = some bs)
    (hsel : s.selectedAddons.Nodup) (hcat : (s.addons.map Addon.id).Nodup) :
    bs.days = selectRentalDays s ∧
    s.selectedVehicle = some bs.vehicle ∧
    bs.baseCost = bs.vehicle.costPerDay * (bs.days : ℚ) ∧
    bs.addonsCost = specAddonsCost s.addons s.selectedAddons bs.days ∧
    bs.subtotal = bs.baseCost + bs.addonsCost ∧
    bs.gst = bs.subtotal * (18 / 100) ∧
    bs.total = bs.subtotal + bs.gst := by
  cases hv : s.selectedVehicle with
  | none =>
    simp only [selectBookingSummary, hv] at h
    exact absurd h (by simp)
  | some v =>
    simp only [selectBookingSummary, hv] at h
    by_cases hcnd : (s.pickupDate == "" || s.dropoffDate == "" ||
        selectRentalDays s == 0) = true
    · rw [if_pos hcnd] at h
      exact absurd h (by simp)
    · rw [if_neg hcnd] at h
      cases Option.some.inj h
      refine ⟨rfl, rfl, rfl, ?_, rfl, rfl, rfl⟩
      show ((s.addons.filter fun a => s.selectedAddons.contains a.id).foldl
        (fun sum a => sum + a.costPerDay * ((selectRentalDays s : Nat) : ℚ)) 0) =
        specAddonsCost s.addons s.selectedAddons (selectRentalDays s)
      rw [foldl_add_map, zero_add]
      exact code_addonsCost_eq_spec s.addons s.selectedAddons (selectRentalDays s)
        hsel hcat

def sedan : Vehicle := ⟨1, "Sedan", "sedan", 2500⟩

def exampleState : BookingState :=
  { initialState with
      selectedVehicle := some sedan
      pickupDate := "2026-10-12"
      dropoffDate := "2026-10-15" }

def exampleSummary : BookingSummary :=
  ⟨sedan, 3, 7500, 0, 7500, 1350, 8850, []⟩

/-- Witness for C6: the spec's own example — ₹2500/day for 3 days with no
add-ons gives baseCost 7500, addonsCost 0, subtotal 7500, tax 1350,
total 8850. -/
theorem spec_C6_witness :
    exampleSummary.days = selectRentalDays exampleState ∧
    exampleState.selectedVehicle = some exampleSummary.vehicle ∧
    exampleSummary.baseCost = exampleSummary.vehicle.costPerDay *
      (exampleSummary.days : ℚ) ∧
    exampleSummary.addonsCost = specAddonsCost exampleState.addons
      exampleState.selectedAddons exampleSummary.days ∧
    exampleSummary.subtotal = exampleSummary.baseCost + exampleSummary.addonsCost ∧
    exampleSummary.gst = exampleSummary.subtotal * (18 / 100) ∧
    exampleSummary.total = exampleSummary.subtotal + exampleSummary.gst :=
  spec_C6 exampleState exampleSummary
    (by
      have hd : selectRentalDays exampleState = 3 := by decide
      simp only [selectBookingSummary, hd,
        show exampleState.selectedVehicle = some sedan from rfl,
        show exampleState.pickupDate = "2026-10-12" from rfl,
        show exampleState.dropoffDate = "2026-10-15" from rfl,
        show exampleState.addons = ([] : List Addon) from rfl,
        show exampleState.selectedAddons = ([] : List Nat) from rfl,
        show (("2026-10-12" : String) == "") = false from by decide,
        show (("2026-10-15" : String) == "") = false from by decide,
        show ((3 : Nat) == 0) = false from by decide]
      norm_num [exampleSummary, sedan])
    (by decide) (by decide)

/-! ## C1: stale add-on fetch results are applied, not discarded -/

/-- C1 (code bug): after `SelectVehicle(Sedan, id 1)` then
`SelectVehicle(SUV, id 2)`, the late resolution of the fetch *originated by
vehicle 1* still overwrites the available add-ons — the `fetchAddons.fulfilled`
reducer never compares the fetch's originating vehicle id with the currently
selected vehicle, so the stale payload is applied rather than discarded. -/
theorem spec_C1_bug :
    (applyActions
      [Action.selectVehicleA ⟨1, "Sedan", "sedan", 2500⟩,
       Action.selectVehicleA ⟨2, "SUV", "suv", 3200⟩,
       Action.addonsFulfilledA (some 1) [⟨7, "GPS", 200⟩]]
      initialState).selectedVehicle = some ⟨2, "SUV", "suv", 3200⟩ ∧
    (applyActions
      [Action.selectVehicleA ⟨1, "Sedan", "sedan", 2500⟩,
       Action.selectVehicleA ⟨2, "SUV", "suv", 3200⟩,
       Action.addonsFulfilledA (some 1) [⟨7, "GPS", 200⟩]]
      initialState).addons = [⟨7, "GPS", 200⟩] := by
  decide

end CarRental
